import Mathlib

/-!
Verification of the Remote Content Resolution subsystem of the opac web
application, a shallow embedding of `src/opac/webapp/main/views.py`.

Strings are modelled as `List Char`, byte payloads as `List Nat`.  External
collaborators (the HTTP client, the XML parser, the publishing-format HTML
generator, the HTML tree search) are modelled as explicit function
parameters, so that each view function becomes a pure function of its
inputs and of the behaviour of its collaborators.
-/

/-! ## Content Fetcher (`fetch_data`, views.py lines 43-74) -/

/-- Failure classification of `fetch_data`.  `retryableError` and
`nonRetryableError` embed the exception classes `RetryableError` and
`NonRetryableError` declared at views.py lines 43-53; `httpError` embeds a
`requests.HTTPError` re-raised unclassified by the bare `raise` at line 72,
carrying the status code of the response. -/
inductive FetchErr where
  | retryableError : FetchErr
  | nonRetryableError : FetchErr
  | httpError : Nat → FetchErr
deriving DecidableEq

/-- Outcome of the `requests.get(url, timeout=timeout)` call at line 58:
either one of the exception classes named by the two `except` clauses at
lines 59 and 61, or a response carrying a status code and body bytes. -/
inductive GetOutcome where
  | connError : GetOutcome
  | invalidUrl : GetOutcome
  | response : Nat → List Nat → GetOutcome
deriving DecidableEq

/-- Model of `requests.Response.raise_for_status` (library code called at
line 65): it raises `requests.HTTPError` exactly when the status code is in
[400, 600) ("4xx client error or 5xx server error response"), and the raised
error carries that status code.  `some s` means an error with status `s`
was raised; `none` means no error. -/
def raise_for_status (status : Nat) : Option Nat :=
  if 400 ≤ status ∧ status < 600 then some status else none

/-- The `except requests.HTTPError` handler of `fetch_data` at views.py
lines 66-72: a status in [400, 500) becomes `NonRetryableError`, a status in
[500, 600) becomes `RetryableError`, anything else is re-raised as is. -/
def classify_http_error (status : Nat) : FetchErr :=
  if 400 ≤ status ∧ status < 500 then FetchErr.nonRetryableError
  else if 500 ≤ status ∧ status < 600 then FetchErr.retryableError
  else FetchErr.httpError status

/-- Default value of the `timeout` parameter in the signature
`fetch_data(url: str, timeout: float = 2)` at views.py line 56. -/
def fetch_data_default_timeout : Nat := 2

/-- Embedding of `fetch_data` (views.py lines 56-74) over the outcome of
its `requests.get` call: a `ConnectionError` or `Timeout` raises
`RetryableError` (line 60); an `InvalidSchema`, `MissingSchema` or
`InvalidURL` raises `NonRetryableError` (line 62); otherwise
`raise_for_status` is consulted and any `HTTPError` is classified by
status (lines 63-72); on success `response.content` is returned (line 74). -/
def fetch_data : GetOutcome → Except FetchErr (List Nat)
  | GetOutcome.connError => Except.error FetchErr.retryableError
  | GetOutcome.invalidUrl => Except.error FetchErr.nonRetryableError
  | GetOutcome.response status body =>
    match raise_for_status status with
    | some s => Except.error (classify_http_error s)
    | none => Except.ok body

/-! ## URL Normalizer (`normalize_ssm_url`, views.py lines 973-988) -/

/-- Characters admissible in a URL scheme, after `scheme_chars` of the
CPython `urllib.parse` module: letters, digits, and the three marks
plus, minus, dot. -/
def scheme_char (c : Char) : Bool :=
  c.isAlphanum || decide (c = '+') || decide (c = '-') || decide (c = '.')

/-- All characters of the candidate scheme are admissible. -/
def scheme_chars_ok (s : List Char) : Bool :=
  s.all scheme_char

/-- Scheme removal step of CPython `urlsplit` (library code reached from
`urlparse(url)` at views.py line 985): when the URL has a colon at a
positive index and every character before it is a scheme character, the
scheme and the colon are removed; otherwise the URL is left unchanged. -/
def split_scheme (url : List Char) : List Char :=
  if (url.takeWhile (fun c => decide (c ≠ ':'))).length < url.length
      ∧ 0 < (url.takeWhile (fun c => decide (c ≠ ':'))).length
      ∧ scheme_chars_ok (url.takeWhile (fun c => decide (c ≠ ':'))) = true
  then url.drop ((url.takeWhile (fun c => decide (c ≠ ':'))).length + 1)
  else url

/-- Authority removal step of CPython `urlsplit`: when the remainder starts
with a double slash, the netloc extends up to the first slash, question
mark or hash, and is removed together with the double slash; the
delimiter itself is kept as the start of the path. -/
def drop_netloc (r : List Char) : List Char :=
  if r.take 2 = ['/', '/'] then
    (r.drop 2).dropWhile (fun c => decide (c ≠ '/' ∧ c ≠ '?' ∧ c ≠ '#'))
  else r

/-- Fragment and query removal steps of CPython `urlsplit`: the fragment is
split off at the first hash, then the query at the first question mark. -/
def strip_query_fragment (r : List Char) : List Char :=
  (r.takeWhile (fun c => decide (c ≠ '#'))).takeWhile (fun c => decide (c ≠ '?'))

/-- The scheme component reported by CPython `urlsplit`, lowercased as
the library does; when the URL carries no scheme the default empty
scheme of `urlparse` is reported. -/
def parsed_scheme (url : List Char) : List Char :=
  if (url.takeWhile (fun c => decide (c ≠ ':'))).length < url.length
      ∧ 0 < (url.takeWhile (fun c => decide (c ≠ ':'))).length
      ∧ scheme_chars_ok (url.takeWhile (fun c => decide (c ≠ ':'))) = true
  then (url.takeWhile (fun c => decide (c ≠ ':'))).map Char.toLower
  else []

/-- The `uses_params` list of the CPython `urllib.parse` module: the
schemes whose paths undergo params splitting in `urlparse`. -/
def uses_params_schemes : List (List Char) :=
  ["".data, "ftp".data, "hdl".data, "prospero".data, "http".data, "imap".data,
   "https".data, "shttp".data, "rtsp".data, "rtspu".data, "sip".data,
   "sips".data, "mms".data, "sftp".data, "tel".data]

/-- Membership of a scheme in the CPython `uses_params` list. -/
def uses_params (scheme : List Char) : Bool :=
  decide (scheme ∈ uses_params_schemes)

/-- The segment of a path after its last slash. -/
def last_segment (p : List Char) : List Char :=
  (p.reverse.takeWhile (fun c => decide (c ≠ '/'))).reverse

/-- Model of CPython `_splitparams` as invoked by `urlparse` on the path
component: when the path contains a semicolon, the params are split off
at the first semicolon of the last segment (after the last slash, or of
the whole path when it has no slash); a semicolon only in an earlier
segment leaves the path unchanged. -/
def split_params (p : List Char) : List Char :=
  if ';' ∈ p then
    if '/' ∈ p then
      if ';' ∈ last_segment p then
        p.take (p.length - (last_segment p).length)
          ++ (last_segment p).takeWhile (fun c => decide (c ≠ ';'))
      else p
    else p.takeWhile (fun c => decide (c ≠ ';'))
  else p

/-- Model of `urlparse(url).path` as used at views.py line 985: the path
of `urlsplit`, additionally stripped of params when the scheme is in the
`uses_params` list (`urlparse` differs from `urlsplit` exactly here). -/
def urlparse_path (url : List Char) : List Char :=
  if uses_params (parsed_scheme url) then
    split_params (strip_query_fragment (drop_netloc (split_scheme url)))
  else
    strip_query_fragment (drop_netloc (split_scheme url))

/-- Embedding of `normalize_ssm_url` (views.py lines 973-988), with the
configuration value `current_app.config["SSM_BASE_URI"]` passed as the
explicit parameter `base`: if the url starts with "http" it is parsed and
only its path is kept, concatenated after `base`; otherwise the url is
concatenated after `base` unchanged. -/
def normalize_ssm_url (base url : List Char) : List Char :=
  if ("http".data).isPrefixOf url then base ++ urlparse_path url
  else base ++ url

/-! ## Data model: resource descriptors and articles (spec section 3) -/

/-- A per-language resource descriptor: one entry of `article.htmls` or
`article.pdfs`, a dict with keys `lang` and `url` in the source. -/
structure Desc where
  lang : List Char
  url : List Char
deriving DecidableEq

/-- The fields of an Article consumed by the Remote Content Resolution
subsystem.  `xml` models `article.xml` with `[]` standing for an unset or
empty value (both are falsy in the `if article.xml:` test of the source);
`htmls` and `pdfs` model the per-language descriptor lists; `languages`
models `article.languages` and `original_language` models
`article.original_language`. -/
structure Article where
  xml : List Char
  htmls : List Desc
  pdfs : List Desc
  original_language : List Char
  languages : List (List Char)
deriving DecidableEq

/-! ## Representation Renderer (views.py lines 924-968) -/

/-- Errors that can escape `render_html` and reach the handler at
views.py lines 1056-1059.  `fetch` wraps an error raised by `fetch_data`;
`xmlSyntax` models the `lxml.etree.XMLSyntaxError` raised by
`etree.parse` at line 930 on malformed bytes (in lxml this class derives
from `LxmlSyntaxError`, which derives from `LxmlError` and `SyntaxError`,
so it is not a `ValueError`); `valueError` models a `ValueError`: the one
raised at line 949 when no HTML descriptor matches, and the one raised by
`HTMLGenerator.generate` at line 935 when the requested language is not
among the generated ones. -/
inductive RenderErr where
  | fetch : FetchErr → RenderErr
  | xmlSyntax : RenderErr
  | valueError : RenderErr
deriving DecidableEq

/-- The rendered content fragment handed to the template: either the
result of `soup.find` on the generated HTML (line 938, possibly `None`),
or a decoded text string (line 953, also covering the literal empty
string returned at line 968). -/
inductive Fragment (γ : Type) where
  | soupDiv : Option γ → Fragment γ
  | text : List Char → Fragment γ
deriving DecidableEq

/-- The collaborators and configuration the renderer depends on, passed
explicitly.  `rewrite` is `current_app.config["SSM_XML_URL_REWRITE"]`
(line 925) and `base` is `current_app.config["SSM_BASE_URI"]`;
`fetch` is the behaviour of `fetch_data` on this request, with the type of
`fetch_data`; `decode` is `bytes.decode("utf8")` (line 953); `parse` is
`etree.parse` over `BytesIO` (line 930), failing like `XMLSyntaxError`;
`generate` is `HTMLGenerator.parse(xml, valid_only=False).generate(lang)`
(lines 932-935), failing like the `ValueError` it raises on an unknown
language; `gen_languages` is the `generator.languages` attribute
(line 938); `find_standalone` is the
`soup.find with id standalonearticle` search (line 938).  `δ` is the type
of parsed documents, `γ` the type of generated HTML trees. -/
structure RenderEnv (δ γ : Type) where
  rewrite : Bool
  base : List Char
  fetch : List Char → Except FetchErr (List Nat)
  decode : List Nat → List Char
  parse : List Nat → Except Unit δ
  generate : δ → List Char → Except Unit γ
  gen_languages : δ → List (List Char)
  find_standalone : γ → Option γ

/-- The address actually fetched by `render_html_from_xml`, embedding the
conditional at views.py lines 925-928: the XML address is normalized only
when the `SSM_XML_URL_REWRITE` configuration flag is on. -/
def fetched_xml_url (rewrite : Bool) (base xml : List Char) : List Char :=
  if rewrite then normalize_ssm_url base xml else xml

/-- Embedding of `render_html_from_xml` (views.py lines 924-938): fetch
the (conditionally normalized) XML address, parse the bytes, generate the
HTML for the requested language, and return the fragment found under the
element id `standalonearticle` together with `generator.languages`. -/
def render_html_from_xml {δ γ : Type} (env : RenderEnv δ γ) (article : Article)
    (lang : List Char) : Except RenderErr (Fragment γ × List (List Char)) :=
  match env.fetch (fetched_xml_url env.rewrite env.base article.xml) with
  | Except.error e => Except.error (RenderErr.fetch e)
  | Except.ok bs =>
    match env.parse bs with
    | Except.error _ => Except.error RenderErr.xmlSyntax
    | Except.ok doc =>
      match env.generate doc lang with
      | Except.error _ => Except.error RenderErr.valueError
      | Except.ok html =>
        Except.ok (Fragment.soupDiv (env.find_standalone html), env.gen_languages doc)

/-- The selection step of `render_html_from_html` (views.py lines
942-949): the list comprehension keeping the descriptors whose `lang`
equals the requested one, followed by indexing `[0]`, whose `IndexError`
on an empty list is converted to a `ValueError` at line 949. -/
def selected_html_url (htmls : List Desc) (lang : List Char) :
    Except RenderErr (List Char) :=
  match htmls.filter (fun h => decide (h.lang = lang)) with
  | [] => Except.error RenderErr.valueError
  | h :: _ => Except.ok h.url

/-- Embedding of `render_html_from_html` (views.py lines 941-957): select
the first descriptor matching the requested language, fetch its
unconditionally normalized address, decode the bytes as text, and return
the text together with the `lang` of every descriptor. -/
def render_html_from_html {δ γ : Type} (env : RenderEnv δ γ) (article : Article)
    (lang : List Char) : Except RenderErr (Fragment γ × List (List Char)) :=
  match selected_html_url article.htmls lang with
  | Except.error e => Except.error e
  | Except.ok u =>
    match env.fetch (normalize_ssm_url env.base u) with
    | Except.error e => Except.error (RenderErr.fetch e)
    | Except.ok bs =>
      Except.ok (Fragment.text (env.decode bs), article.htmls.map Desc.lang)

/-- Embedding of `render_html` (views.py lines 960-968): the XML path if
`article.xml` is truthy, otherwise the HTML path if `article.htmls` is
truthy, otherwise the literal pair of an empty string and an empty list. -/
def render_html {δ γ : Type} (env : RenderEnv δ γ) (article : Article)
    (lang : List Char) : Except RenderErr (Fragment γ × List (List Char)) :=
  if article.xml ≠ [] then render_html_from_xml env article lang
  else if article.htmls ≠ [] then render_html_from_html env article lang
  else Except.ok (Fragment.text [], [])

/-! ## The article_detail error boundary (views.py lines 1056-1059) -/

/-- Outcome of the `try` block of `article_detail` around `render_html`:
a rendered page, the `abort(404, ...)` of line 1059, or an uncaught
exception propagating as a server error. -/
inductive DetailOutcome (γ : Type) where
  | page : Fragment γ → List (List Char) → DetailOutcome γ
  | abort404 : DetailOutcome γ
  | serverError : DetailOutcome γ
deriving DecidableEq

/-- Embedding of the handler
`except (ValueError, NonRetryableError, RetryableError): abort(404, ...)`
at views.py lines 1056-1059.  `ValueError`, `NonRetryableError` and
`RetryableError` are caught and become the 404 abort; an
`XMLSyntaxError` from `etree.parse` and an unclassified
`requests.HTTPError` re-raised by `fetch_data` match none of the three
caught classes and propagate as a server error. -/
def article_detail_handle {γ : Type}
    (r : Except RenderErr (Fragment γ × List (List Char))) : DetailOutcome γ :=
  match r with
  | Except.ok (h, langs) => DetailOutcome.page h langs
  | Except.error RenderErr.valueError => DetailOutcome.abort404
  | Except.error (RenderErr.fetch FetchErr.retryableError) => DetailOutcome.abort404
  | Except.error (RenderErr.fetch FetchErr.nonRetryableError) => DetailOutcome.abort404
  | Except.error (RenderErr.fetch (FetchErr.httpError _)) => DetailOutcome.serverError
  | Except.error RenderErr.xmlSyntax => DetailOutcome.serverError

/-! ## Language resolution (views.py lines 1011-1023 and 1165-1177) -/

/-- Result of the language fallback and validity check shared by
`article_detail` and `article_detail_pdf`: either proceed with a language
or redirect (HTTP 301) to the original language of the article. -/
inductive LangResolution where
  | proceed : List Char → LangResolution
  | redirectOriginal : List Char → LangResolution
deriving DecidableEq

/-- Embedding of
`lang_code = lang_code or article.original_language` followed by
`if lang_code not in article.languages + [article.original_language]`
(views.py lines 1011-1023, repeated verbatim at lines 1165-1177): an
empty requested code falls back to the original language, and a code
outside the valid set redirects to the original language. -/
def resolve_article_lang (article : Article) (lang_code : List Char) :
    LangResolution :=
  if (if lang_code = [] then article.original_language else lang_code)
      ∈ article.languages ++ [article.original_language] then
    LangResolution.proceed
      (if lang_code = [] then article.original_language else lang_code)
  else
    LangResolution.redirectOriginal article.original_language

/-! ## PDF selection (views.py lines 1190-1205) -/

/-- Embedding of the PDF descriptor selection of `article_detail_pdf`
(views.py lines 1190-1205): with no PDFs at all the route aborts with
404; otherwise the descriptors matching the requested language are
collected and the route aborts with 404 unless exactly one matches, in
which case its url is used.  `none` stands for the 404 abort. -/
def article_detail_pdf_select (pdfs : List Desc) (lang : List Char) :
    Option (List Char) :=
  if pdfs = [] then none
  else
    match pdfs.filter (fun p => decide (p.lang = lang)) with
    | [d] => some d.url
    | _ => none

/-! ## Helper lemmas on takeWhile, dropWhile and isPrefixOf -/

theorem takeWhile_of_all {α : Type} (p : α → Bool) (l : List α)
    (h : ∀ x ∈ l, p x = true) : l.takeWhile p = l := by
  induction l with
  | nil => rfl
  | cons a as ih =>
    have ht := ih (fun x hx => h x (by simp [hx]))
    simp [List.takeWhile_cons, h a (by simp), ht]

theorem dropWhile_of_all {α : Type} (p : α → Bool) (l : List α)
    (h : ∀ x ∈ l, p x = true) : l.dropWhile p = [] := by
  induction l with
  | nil => rfl
  | cons a as ih =>
    have ht := ih (fun x hx => h x (by simp [hx]))
    simp [List.dropWhile_cons, h a (by simp), ht]

theorem takeWhile_append_stop {α : Type} (p : α → Bool) (l₁ : List α) (c : α)
    (l₂ : List α) (h₁ : ∀ x ∈ l₁, p x = true) (hc : p c = false) :
    (l₁ ++ c :: l₂).takeWhile p = l₁ := by
  induction l₁ with
  | nil => simp [List.takeWhile_cons, hc]
  | cons a as ih =>
    have ht := ih (fun x hx => h₁ x (by simp [hx]))
    simp [List.takeWhile_cons, h₁ a (by simp), ht]

theorem dropWhile_append_stop {α : Type} (p : α → Bool) (l₁ : List α) (c : α)
    (l₂ : List α) (h₁ : ∀ x ∈ l₁, p x = true) (hc : p c = false) :
    (l₁ ++ c :: l₂).dropWhile p = c :: l₂ := by
  induction l₁ with
  | nil => simp [List.dropWhile_cons, hc]
  | cons a as ih =>
    have ht := ih (fun x hx => h₁ x (by simp [hx]))
    simp [List.dropWhile_cons, h₁ a (by simp), ht]

theorem isPrefixOf_self_append (l t : List Char) : l.isPrefixOf (l ++ t) = true := by
  rw [List.isPrefixOf_iff_prefix]
  exact List.prefix_append l t

theorem scheme_char_ne_colon (c : Char) (h : scheme_char c = true) :
    decide (c ≠ ':') = true := by
  by_cases hc : c = ':'
  · subst hc
    simp [scheme_char] at h
  · simp [hc]

/-! ## Claim C1 -/

/-- Claim C1: `fetch_data`, called with an address and a timeout
defaulting to 2, returns the response body bytes unchanged on success;
a connection failure or timeout raises `RetryableError`; a malformed
address or unsupported scheme raises `NonRetryableError`; an HTTP error
with status in [400, 500) raises `NonRetryableError`, with status in
[500, 600) raises `RetryableError`, and with any other status is
re-raised unclassified by the handler. -/
theorem fetch_data_classification :
    fetch_data GetOutcome.connError = Except.error FetchErr.retryableError
    ∧ fetch_data GetOutcome.invalidUrl = Except.error FetchErr.nonRetryableError
    ∧ (∀ s body, 400 ≤ s → s < 500 →
        fetch_data (GetOutcome.response s body) = Except.error FetchErr.nonRetryableError)
    ∧ (∀ s body, 500 ≤ s → s < 600 →
        fetch_data (GetOutcome.response s body) = Except.error FetchErr.retryableError)
    ∧ (∀ s body, ¬(400 ≤ s ∧ s < 600) →
        fetch_data (GetOutcome.response s body) = Except.ok body)
    ∧ (∀ s, ¬(400 ≤ s ∧ s < 500) → ¬(500 ≤ s ∧ s < 600) →
        classify_http_error s = FetchErr.httpError s)
    ∧ fetch_data_default_timeout = 2 := by
  refine ⟨rfl, rfl, ?_, ?_, ?_, ?_, rfl⟩
  · intro s body h1 h2
    have h6 : s < 600 := by omega
    simp [fetch_data, raise_for_status, classify_http_error, h1, h2, h6]
  · intro s body h1 h2
    have h4 : 400 ≤ s := by omega
    have hn : ¬(400 ≤ s ∧ s < 500) := by omega
    simp [fetch_data, raise_for_status, classify_http_error, h1, h2, h4, hn]
  · intro s body h
    simp [fetch_data, raise_for_status, h]
  · intro s h1 h2
    unfold classify_http_error
    rw [if_neg h1, if_neg h2]

/-- Concrete instances of `fetch_data_classification`: a 404 response is
non-retryable, a 503 response is retryable, a 200 response yields the
body bytes unchanged, and a 302 status escapes classification. -/
theorem fetch_data_classification_witness :
    fetch_data (GetOutcome.response 404 [1, 2]) = Except.error FetchErr.nonRetryableError
    ∧ fetch_data (GetOutcome.response 503 [1, 2]) = Except.error FetchErr.retryableError
    ∧ fetch_data (GetOutcome.response 200 [1, 2]) = Except.ok [1, 2]
    ∧ classify_http_error 302 = FetchErr.httpError 302 :=
  ⟨fetch_data_classification.2.2.1 404 [1, 2] (by decide) (by decide),
   fetch_data_classification.2.2.2.1 503 [1, 2] (by decide) (by decide),
   fetch_data_classification.2.2.2.2.1 200 [1, 2] (by decide),
   fetch_data_classification.2.2.2.2.2.1 302 (by decide) (by decide)⟩

/-! ## Claim C10 -/

/-- Claim C10: every HTTP error raised by `raise_for_status` carries a
status in [400, 600), so the status check of `fetch_data` always
reclassifies it as `RetryableError` or `NonRetryableError`; the
fall-through branch re-raising an unclassified error is unreachable, and
`fetch_data` never produces an unclassified HTTP error. -/
theorem http_errors_all_classified :
    (∀ s e, raise_for_status s = some e →
      (400 ≤ e ∧ e < 600) ∧ classify_http_error e ≠ FetchErr.httpError e)
    ∧ (∀ o s, fetch_data o ≠ Except.error (FetchErr.httpError s)) := by
  constructor
  · intro s e h
    unfold raise_for_status at h
    split at h
    case isTrue hc =>
      cases h
      refine ⟨hc, ?_⟩
      unfold classify_http_error
      by_cases h4 : 400 ≤ s ∧ s < 500
      · rw [if_pos h4]
        simp
      · rw [if_neg h4, if_pos (by omega)]
        simp
    case isFalse hc => cases h
  · intro o s
    cases o with
    | connError => simp [fetch_data]
    | invalidUrl => simp [fetch_data]
    | response st body =>
      by_cases hc : 400 ≤ st ∧ st < 600
      · have h : raise_for_status st = some st := by
          unfold raise_for_status
          rw [if_pos hc]
        by_cases h4 : 400 ≤ st ∧ st < 500
        · have hcl : classify_http_error st = FetchErr.nonRetryableError := by
            unfold classify_http_error
            rw [if_pos h4]
          simp [fetch_data, h, hcl]
        · have hcl : classify_http_error st = FetchErr.retryableError := by
            unfold classify_http_error
            rw [if_neg h4, if_pos (by omega)]
          simp [fetch_data, h, hcl]
      · have h : raise_for_status st = none := by
          unfold raise_for_status
          rw [if_neg hc]
        simp [fetch_data, h]

/-- Concrete instance of `http_errors_all_classified`: the error raised
on a 418 status is in range and is reclassified. -/
theorem http_errors_all_classified_witness :
    (400 ≤ 418 ∧ 418 < 600) ∧ classify_http_error 418 ≠ FetchErr.httpError 418 :=
  http_errors_all_classified.1 418 418 (by decide)

/-! ## Claim C2 -/

/-- Claim C2: for every address and configured base URI `B`, an absolute
address with scheme http or https, host `H` and path-and-params part
`P`, is normalized to `B` followed by the path that `urlparse` reports
for `P` (the host is discarded, and params after a semicolon in the last
segment are dropped, exactly as the library does for http schemes);
when `P` carries no semicolon the reported path is `P` itself, so
`normalize` yields `B ++ P`; an address not beginning with the http
scheme indicator is normalized to the address concatenated after `B`
unchanged. -/
theorem normalize_ssm_url_correct :
    (∀ (B r H P : List Char),
      (r = [] ∨ r = ['s']) →
      (∀ c ∈ H, c ≠ '/' ∧ c ≠ '?' ∧ c ≠ '#') →
      (∀ c ∈ P, c ≠ '?' ∧ c ≠ '#') →
      (P = [] ∨ ∃ Q, P = '/' :: Q) →
      normalize_ssm_url B ("http".data ++ r ++ ':' :: '/' :: '/' :: (H ++ P)) =
        B ++ split_params P)
    ∧ (∀ P : List Char, ';' ∉ P → split_params P = P)
    ∧ (∀ (B A : List Char), ("http".data).isPrefixOf A = false →
      normalize_ssm_url B A = B ++ A) := by
  refine ⟨?_, ?_, ?_⟩
  · intro B r H P hr hH hPq hPslash
    have hs : scheme_chars_ok ("http".data ++ r) = true := by
      cases hr with
      | inl h =>
        subst h
        decide
      | inr h =>
        subst h
        decide
    have hall := List.all_eq_true.mp hs
    have hcolon : ∀ x ∈ "http".data ++ r, (fun c => decide (c ≠ ':')) x = true :=
      fun x hx => scheme_char_ne_colon x (hall x hx)
    have hpre : ("http".data).isPrefixOf
        ("http".data ++ r ++ ':' :: '/' :: '/' :: (H ++ P)) = true := by
      rw [List.append_assoc]
      exact isPrefixOf_self_append _ _
    have htw : (("http".data ++ r) ++ ':' :: '/' :: '/' :: (H ++ P)).takeWhile
        (fun c => decide (c ≠ ':')) = "http".data ++ r :=
      takeWhile_append_stop _ _ _ _ hcolon (by decide)
    have hlen4 : ("http".data).length = 4 := by decide
    have hss : split_scheme ("http".data ++ r ++ ':' :: '/' :: '/' :: (H ++ P)) =
        '/' :: '/' :: (H ++ P) := by
      unfold split_scheme
      rw [htw]
      rw [if_pos ⟨by simp [List.length_append], by simp [List.length_append, hlen4], hs⟩]
      have hsplit : (("http".data ++ r) ++ [':']) ++ '/' :: '/' :: (H ++ P) =
          ("http".data ++ r) ++ ':' :: '/' :: '/' :: (H ++ P) := by
        rw [List.append_assoc]
        rfl
      rw [← hsplit]
      have hlen : ("http".data ++ r).length + 1 = (("http".data ++ r) ++ [':']).length := by
        simp [List.length_append]
      rw [hlen, List.drop_left]
    have hHp : ∀ x ∈ H, (fun c => decide (c ≠ '/' ∧ c ≠ '?' ∧ c ≠ '#')) x = true := by
      intro x hx
      obtain ⟨h1, h2, h3⟩ := hH x hx
      simp only [decide_eq_true_eq]
      exact ⟨h1, h2, h3⟩
    have hdn : drop_netloc ('/' :: '/' :: (H ++ P)) = P := by
      unfold drop_netloc
      rw [if_pos (show ('/' :: '/' :: (H ++ P)).take 2 = ['/', '/'] from rfl)]
      show (H ++ P).dropWhile (fun c => decide (c ≠ '/' ∧ c ≠ '?' ∧ c ≠ '#')) = P
      cases hPslash with
      | inl h =>
        subst h
        rw [List.append_nil]
        exact dropWhile_of_all _ _ hHp
      | inr h =>
        obtain ⟨Q, hQ⟩ := h
        subst hQ
        exact dropWhile_append_stop _ _ _ _ hHp (by decide)
    have hsq : strip_query_fragment P = P := by
      unfold strip_query_fragment
      rw [takeWhile_of_all (fun c => decide (c ≠ '#')) P (fun c hc => by
        simp only [decide_eq_true_eq]
        exact (hPq c hc).2)]
      exact takeWhile_of_all _ P (fun c hc => by
        simp only [decide_eq_true_eq]
        exact (hPq c hc).1)
    have hps : parsed_scheme ("http".data ++ r ++ ':' :: '/' :: '/' :: (H ++ P)) =
        ("http".data ++ r).map Char.toLower := by
      unfold parsed_scheme
      rw [htw]
      rw [if_pos ⟨by simp [List.length_append], by simp [List.length_append, hlen4], hs⟩]
    have hup : uses_params
        (parsed_scheme ("http".data ++ r ++ ':' :: '/' :: '/' :: (H ++ P))) = true := by
      rw [hps]
      cases hr with
      | inl h =>
        subst h
        decide
      | inr h =>
        subst h
        decide
    unfold normalize_ssm_url
    rw [if_pos hpre]
    unfold urlparse_path
    rw [if_pos hup]
    rw [hss, hdn, hsq]
  · intro P h
    unfold split_params
    rw [if_neg h]
  · intro B A h
    unfold normalize_ssm_url
    rw [if_neg (by simp [h])]

/-- Concrete instances of `normalize_ssm_url_correct`: an absolute http
address loses its host and keeps its params-free path after the
configured base, and a relative address is appended unchanged. -/
theorem normalize_ssm_url_correct_witness :
    normalize_ssm_url "http://base".data
        ("http".data ++ [] ++ ':' :: '/' :: '/' :: ("www.scielo.br".data ++ "/j/a.html".data)) =
      "http://base".data ++ "/j/a.html".data
    ∧ normalize_ssm_url "http://base".data "media/b.pdf".data =
      "http://base".data ++ "media/b.pdf".data := by
  constructor
  · rw [normalize_ssm_url_correct.1 "http://base".data [] "www.scielo.br".data
        "/j/a.html".data (Or.inl rfl) (by decide) (by decide)
        (Or.inr ⟨"j/a.html".data, by decide⟩),
      normalize_ssm_url_correct.2.1 "/j/a.html".data (by decide)]
  · exact normalize_ssm_url_correct.2.2 "http://base".data "media/b.pdf".data (by decide)

/-! ## Claim C9 -/

/-- Claim C9: `normalize_ssm_url` is not idempotent in general: there is
a base URI and an address for which applying it twice differs from
applying it once (a second application of an already-normalized address
strips the query string, because the normalized address starts with
http). -/
theorem normalize_ssm_url_not_idempotent :
    ∃ base a : List Char,
      normalize_ssm_url base (normalize_ssm_url base a) ≠ normalize_ssm_url base a :=
  ⟨"http://ssm.scielo.org".data, "/media/a.pdf?v=1".data, by decide⟩

/-! ## Claim C3 -/

/-- Claim C3: when some HTML descriptor matches the requested language
exactly, `render_html_from_html` fetches the normalized address of a
matching descriptor and on success returns the decoded text together
with the languages of all descriptors; when no descriptor matches, it
fails with the resource-not-found `ValueError`, which the handler of
`article_detail` converts into a 404 response and never into a server
error. -/
theorem render_html_from_html_correct {δ γ : Type} (env : RenderEnv δ γ)
    (a : Article) (lang : List Char) :
    ((∃ d ∈ a.htmls, d.lang = lang) →
      ∃ d, d ∈ a.htmls ∧ d.lang = lang ∧
        render_html_from_html env a lang =
          (match env.fetch (normalize_ssm_url env.base d.url) with
           | Except.error e => Except.error (RenderErr.fetch e)
           | Except.ok bs =>
             Except.ok (Fragment.text (env.decode bs), a.htmls.map Desc.lang)))
    ∧ ((∀ d ∈ a.htmls, d.lang ≠ lang) →
      render_html_from_html env a lang = Except.error RenderErr.valueError)
    ∧ (article_detail_handle (Except.error RenderErr.valueError :
        Except RenderErr (Fragment γ × List (List Char))) = DetailOutcome.abort404
      ∧ article_detail_handle (Except.error RenderErr.valueError :
        Except RenderErr (Fragment γ × List (List Char))) ≠ DetailOutcome.serverError) := by
  refine ⟨?_, ?_, rfl, by simp [article_detail_handle]⟩
  · intro hex
    cases hfe : a.htmls.filter (fun h => decide (h.lang = lang)) with
    | nil =>
      obtain ⟨d, hd, hl⟩ := hex
      have hmem : d ∈ a.htmls.filter (fun h => decide (h.lang = lang)) :=
        List.mem_filter.mpr ⟨hd, by simp [hl]⟩
      rw [hfe] at hmem
      cases hmem
    | cons d0 rest =>
      have hd0 : d0 ∈ a.htmls.filter (fun h => decide (h.lang = lang)) := by
        rw [hfe]
        exact List.mem_cons_self _ _
      have hprop := List.mem_filter.mp hd0
      refine ⟨d0, hprop.1, by simpa using hprop.2, ?_⟩
      unfold render_html_from_html selected_html_url
      rw [hfe]
  · intro hnone
    have hfe : a.htmls.filter (fun h => decide (h.lang = lang)) = [] := by
      rw [List.filter_eq_nil_iff]
      intro d hd
      simp [hnone d hd]
    unfold render_html_from_html selected_html_url
    rw [hfe]

/-- Concrete instances of `render_html_from_html_correct`: with no
matching descriptor the renderer fails with the `ValueError`, and the
`article_detail` handler turns that failure into the 404 abort. -/
theorem render_html_from_html_correct_witness :
    render_html_from_html
        (⟨true, "http://b".data, fun _ => Except.ok [5], fun _ => "x".data,
          fun _ => Except.ok 0, fun _ _ => Except.ok 0, fun _ => [],
          fun _ => none⟩ : RenderEnv Nat Nat)
        ⟨[], [⟨"pt".data, "u".data⟩], [], "pt".data, ["pt".data]⟩ "en".data =
      Except.error RenderErr.valueError
    ∧ article_detail_handle (Except.error RenderErr.valueError :
        Except RenderErr (Fragment Nat × List (List Char))) = DetailOutcome.abort404 :=
  ⟨(render_html_from_html_correct
      (⟨true, "http://b".data, fun _ => Except.ok [5], fun _ => "x".data,
        fun _ => Except.ok 0, fun _ _ => Except.ok 0, fun _ => [],
        fun _ => none⟩ : RenderEnv Nat Nat)
      ⟨[], [⟨"pt".data, "u".data⟩], [], "pt".data, ["pt".data]⟩ "en".data).2.1
      (by decide),
   ((render_html_from_html_correct
      (⟨true, "http://b".data, fun _ => Except.ok [5], fun _ => "x".data,
        fun _ => Except.ok 0, fun _ _ => Except.ok 0, fun _ => [],
        fun _ => none⟩ : RenderEnv Nat Nat)
      ⟨[], [⟨"pt".data, "u".data⟩], [], "pt".data, ["pt".data]⟩ "en".data).2.2).1⟩

/-! ## Claim C4 -/

/-- Claim C4: an empty requested language code is replaced by the
original language of the article before selection; every language that
reaches selection is a member of the languages of the article extended
with its original language; a nonempty request outside that set never
proceeds and is redirected to the original language. -/
theorem article_lang_resolution (a : Article) (lang_code : List Char) :
    (lang_code = [] →
      resolve_article_lang a lang_code = LangResolution.proceed a.original_language)
    ∧ (∀ l, resolve_article_lang a lang_code = LangResolution.proceed l →
      l ∈ a.languages ++ [a.original_language])
    ∧ (lang_code ≠ [] → lang_code ∉ a.languages ++ [a.original_language] →
      resolve_article_lang a lang_code =
        LangResolution.redirectOriginal a.original_language) := by
  refine ⟨?_, ?_, ?_⟩
  · intro h
    subst h
    simp [resolve_article_lang]
  · intro l h
    unfold resolve_article_lang at h
    by_cases hm : (if lang_code = [] then a.original_language else lang_code)
        ∈ a.languages ++ [a.original_language]
    · rw [if_pos hm] at h
      injection h with h2
      subst h2
      exact hm
    · rw [if_neg hm] at h
      cases h
  · intro hne hnm
    simp [resolve_article_lang, hne, hnm]

/-- Concrete instances of `article_lang_resolution`: an empty request on
an article with original language pt proceeds with pt; a request for a
language outside the valid set is redirected to pt. -/
theorem article_lang_resolution_witness :
    resolve_article_lang ⟨[], [], [], "pt".data, ["en".data]⟩ [] =
      LangResolution.proceed "pt".data
    ∧ "en".data ∈ (["en".data] : List (List Char)) ++ ["pt".data]
    ∧ resolve_article_lang ⟨[], [], [], "pt".data, ["en".data]⟩ "es".data =
      LangResolution.redirectOriginal "pt".data :=
  ⟨(article_lang_resolution ⟨[], [], [], "pt".data, ["en".data]⟩ []).1 rfl,
   (article_lang_resolution ⟨[], [], [], "pt".data, ["en".data]⟩ "en".data).2.1
      "en".data (by decide),
   (article_lang_resolution ⟨[], [], [], "pt".data, ["en".data]⟩ "es".data).2.2
      (by decide) (by decide)⟩

/-! ## Claim C7 -/

/-- Claim C7: an article with neither an XML resource reference nor HTML
descriptors renders to the empty fragment and the empty language list
without any error. -/
theorem render_html_no_representation {δ γ : Type} (env : RenderEnv δ γ)
    (a : Article) (lang : List Char) (hx : a.xml = []) (hh : a.htmls = []) :
    render_html env a lang = Except.ok (Fragment.text [], []) := by
  unfold render_html
  rw [if_neg (by simp [hx]), if_neg (by simp [hh])]

/-- Concrete instance of `render_html_no_representation` on an article
with no XML and no HTML descriptors. -/
theorem render_html_no_representation_witness :
    render_html
        (⟨true, [], fun _ => Except.ok [], fun _ => [], fun _ => Except.ok 0,
          fun _ _ => Except.ok 0, fun _ => [], fun _ => none⟩ : RenderEnv Nat Nat)
        ⟨[], [], [], "pt".data, []⟩ "en".data = Except.ok (Fragment.text [], []) :=
  render_html_no_representation
    (⟨true, [], fun _ => Except.ok [], fun _ => [], fun _ => Except.ok 0,
      fun _ _ => Except.ok 0, fun _ => [], fun _ => none⟩ : RenderEnv Nat Nat)
    ⟨[], [], [], "pt".data, []⟩ "en".data rfl rfl

/-! ## Claim C5 -/

/-- Claim C5, counterexample to the claim as stated: a parse failure
(malformed bytes handed to `etree.parse`) raises an error that is not
among the classes caught at views.py line 1058, so it surfaces as a
server error and not as the 404 response the claim requires for every
parse failure. -/
theorem parse_failure_surfaces_server_error :
    article_detail_handle
        (render_html
          (⟨true, "http://b".data, fun _ => Except.ok [60], fun _ => [],
            fun _ => Except.error (), fun _ _ => Except.ok 0, fun _ => [],
            fun _ => none⟩ : RenderEnv Nat Nat)
          ⟨"/a.xml".data, [], [], "en".data, ["en".data]⟩ "en".data) =
      DetailOutcome.serverError
    ∧ article_detail_handle
        (render_html
          (⟨true, "http://b".data, fun _ => Except.ok [60], fun _ => [],
            fun _ => Except.error (), fun _ _ => Except.ok 0, fun _ => [],
            fun _ => none⟩ : RenderEnv Nat Nat)
          ⟨"/a.xml".data, [], [], "en".data, ["en".data]⟩ "en".data) ≠
      DetailOutcome.abort404 := by
  constructor
  · rfl
  · decide

/-- Claim C5 as amended: every fetch failure classified as retryable or
non-retryable, and every `ValueError`-signalled failure, arising while
producing the rendered fragment surfaces as the unified 404 response,
and the retryable distinction is not preserved past this boundary; an
XML parse failure, however, escapes the handler and surfaces as a
server error. -/
theorem render_failure_handling {δ γ : Type} (env : RenderEnv δ γ) (a : Article)
    (lang : List Char) (e : RenderErr)
    (h : render_html env a lang = Except.error e) :
    (article_detail_handle (render_html env a lang) = DetailOutcome.abort404 ↔
      (e = RenderErr.valueError ∨ e = RenderErr.fetch FetchErr.retryableError
        ∨ e = RenderErr.fetch FetchErr.nonRetryableError))
    ∧ article_detail_handle (Except.error (RenderErr.fetch FetchErr.retryableError) :
        Except RenderErr (Fragment γ × List (List Char))) =
      article_detail_handle (Except.error (RenderErr.fetch FetchErr.nonRetryableError) :
        Except RenderErr (Fragment γ × List (List Char)))
    ∧ (e = RenderErr.xmlSyntax →
      article_detail_handle (render_html env a lang) = DetailOutcome.serverError) := by
  rw [h]
  refine ⟨?_, rfl, ?_⟩
  · cases e with
    | valueError => simp [article_detail_handle]
    | xmlSyntax => simp [article_detail_handle]
    | fetch fe => cases fe <;> simp [article_detail_handle]
  · intro he
    subst he
    rfl

/-- Concrete instance of `render_failure_handling`: the missing-descriptor
`ValueError` of the HTML path becomes the 404 abort. -/
theorem render_failure_handling_witness :
    article_detail_handle
        (render_html
          (⟨true, "http://b".data, fun _ => Except.ok [5], fun _ => [],
            fun _ => Except.ok 0, fun _ _ => Except.ok 0, fun _ => [],
            fun _ => none⟩ : RenderEnv Nat Nat)
          ⟨[], [⟨"pt".data, "u".data⟩], [], "pt".data, ["pt".data]⟩ "en".data) =
      DetailOutcome.abort404 :=
  (render_failure_handling
    (⟨true, "http://b".data, fun _ => Except.ok [5], fun _ => [],
      fun _ => Except.ok 0, fun _ _ => Except.ok 0, fun _ => [],
      fun _ => none⟩ : RenderEnv Nat Nat)
    ⟨[], [⟨"pt".data, "u".data⟩], [], "pt".data, ["pt".data]⟩ "en".data
    RenderErr.valueError rfl).1.mpr (Or.inl rfl)

/-! ## Claim C6 -/

/-- Claim C6, counterexample to the claim as stated: when the
`SSM_XML_URL_REWRITE` configuration flag is off, the address fetched by
`render_html_from_xml` is the raw `article.xml` value, not its
normalization, so the XML address is not always normalized before
fetching. -/
theorem xml_url_not_normalized_when_rewrite_off :
    fetched_xml_url false "http://ssm.scielo.org".data "/media/a.xml".data ≠
      normalize_ssm_url "http://ssm.scielo.org".data "/media/a.xml".data := by
  decide

/-- Claim C6 as amended: when the `SSM_XML_URL_REWRITE` flag is on,
`render_html_from_xml` fetches the normalized XML address, parses the
bytes, generates HTML for the requested language, and returns the
fragment found under the stable element id together with the language
set discovered by the generator, whatever fragment was extracted. -/
theorem render_html_from_xml_correct {δ γ : Type} (env : RenderEnv δ γ)
    (a : Article) (lang : List Char) (bs : List Nat) (doc : δ) (html : γ)
    (hrw : env.rewrite = true)
    (hf : env.fetch (normalize_ssm_url env.base a.xml) = Except.ok bs)
    (hp : env.parse bs = Except.ok doc)
    (hg : env.generate doc lang = Except.ok html) :
    render_html_from_xml env a lang =
      Except.ok (Fragment.soupDiv (env.find_standalone html), env.gen_languages doc) := by
  simp [render_html_from_xml, fetched_xml_url, hrw, hf, hp, hg]

/-- Concrete instance of `render_html_from_xml_correct`: on a successful
fetch, parse and generation, the fragment comes from the generated HTML
and the reported language set is the full set found by the generator. -/
theorem render_html_from_xml_correct_witness :
    render_html_from_xml
        (⟨true, "http://b".data, fun _ => Except.ok [1], fun _ => [],
          fun _ => Except.ok 7, fun _ _ => Except.ok 9,
          fun _ => ["en".data, "es".data, "pt".data],
          fun h => some h⟩ : RenderEnv Nat Nat)
        ⟨"/a.xml".data, [], [], "en".data, ["en".data]⟩ "en".data =
      Except.ok (Fragment.soupDiv (some 9), ["en".data, "es".data, "pt".data]) :=
  render_html_from_xml_correct
    (⟨true, "http://b".data, fun _ => Except.ok [1], fun _ => [],
      fun _ => Except.ok 7, fun _ _ => Except.ok 9,
      fun _ => ["en".data, "es".data, "pt".data],
      fun h => some h⟩ : RenderEnv Nat Nat)
    ⟨"/a.xml".data, [], [], "en".data, ["en".data]⟩ "en".data [1] 7 9 rfl rfl rfl rfl

/-! ## Claim C8 -/

/-- Claim C8, counterexample to the claim as stated: with two PDF
descriptors for the same language, `article_detail_pdf` aborts with the
404 response instead of selecting the first matching descriptor. -/
theorem pdf_duplicate_selection_aborts :
    article_detail_pdf_select
        [⟨"en".data, "u1".data⟩, ⟨"en".data, "u2".data⟩] "en".data = none
    ∧ article_detail_pdf_select
        [⟨"en".data, "u1".data⟩, ⟨"en".data, "u2".data⟩] "en".data ≠
      some "u1".data := by
  constructor
  · decide
  · decide

/-- Claim C8 as amended: `render_html_from_html` selects the first
matching HTML descriptor in stored order, duplicates included; PDF
selection in `article_detail_pdf` uses the unique match when exactly one
descriptor matches and responds not-found (modelled as `none`) when the
number of matches differs from one, duplicates included. -/
theorem first_match_selection :
    (∀ (htmls : List Desc) (lang : List Char) (d : Desc) (rest : List Desc),
      htmls.filter (fun h => decide (h.lang = lang)) = d :: rest →
      selected_html_url htmls lang = Except.ok d.url)
    ∧ (∀ (pdfs : List Desc) (lang : List Char) (d : Desc),
      pdfs.filter (fun p => decide (p.lang = lang)) = [d] →
      article_detail_pdf_select pdfs lang = some d.url)
    ∧ (∀ (pdfs : List Desc) (lang : List Char),
      (pdfs.filter (fun p => decide (p.lang = lang))).length ≠ 1 →
      article_detail_pdf_select pdfs lang = none) := by
  refine ⟨?_, ?_, ?_⟩
  · intro htmls lang d rest h
    unfold selected_html_url
    rw [h]
  · intro pdfs lang d h
    have hne : pdfs ≠ [] := by
      intro hp
      subst hp
      cases h
    unfold article_detail_pdf_select
    rw [if_neg hne, h]
  · intro pdfs lang hlen
    unfold article_detail_pdf_select
    by_cases hp : pdfs = []
    · rw [if_pos hp]
    · rw [if_neg hp]
      cases hf : pdfs.filter (fun p => decide (p.lang = lang)) with
      | nil => rfl
      | cons d rest =>
        cases rest with
        | nil =>
          exact absurd (by simp [hf] :
            (pdfs.filter (fun p => decide (p.lang = lang))).length = 1) hlen
        | cons d2 rest2 => rfl

/-- Concrete instances of `first_match_selection`: the first of two
matching HTML descriptors is selected; a unique PDF match is selected;
a language with no PDF match yields the not-found outcome. -/
theorem first_match_selection_witness :
    selected_html_url
        [⟨"pt".data, "a1".data⟩, ⟨"en".data, "a2".data⟩, ⟨"en".data, "a3".data⟩]
        "en".data = Except.ok "a2".data
    ∧ article_detail_pdf_select
        [⟨"pt".data, "p1".data⟩, ⟨"en".data, "p2".data⟩] "en".data = some "p2".data
    ∧ article_detail_pdf_select [⟨"pt".data, "p1".data⟩] "en".data = none :=
  ⟨first_match_selection.1
      [⟨"pt".data, "a1".data⟩, ⟨"en".data, "a2".data⟩, ⟨"en".data, "a3".data⟩]
      "en".data ⟨"en".data, "a2".data⟩ [⟨"en".data, "a3".data⟩] (by decide),
   first_match_selection.2.1
      [⟨"pt".data, "p1".data⟩, ⟨"en".data, "p2".data⟩] "en".data
      ⟨"en".data, "p2".data⟩ (by decide),
   first_match_selection.2.2 [⟨"pt".data, "p1".data⟩] "en".data (by decide)⟩
